import Mathlib

/-!
Shallow embedding of the S3 download benchmark (`main.go` of
xdg-go/s3skunk) and proofs of the specification claims.

Conventions of the embedding:
* Go `uint`/`int` flag values are modelled as `Nat` (all relevant values in
  the program are non-negative and far from overflow).
* `log.Fatalf`/`log.Fatal` terminate the process with a non-zero exit and
  no further output; we model such an abort as an `Except.error` value that
  propagates to the top, since observationally both mean "non-zero exit,
  no datapoint emitted".
* External collaborators (the S3 listing paginator, `GetObject`, the
  response body, wall-clock time, and the tdigest quantile sketch) are
  oracle parameters supplied to the embedded functions.
* Durations are modelled as rationals (seconds); `time.Since(start)` of a
  request answered at time `t1` after being issued at `t0` is `t1 - t0`.
* The concurrent coordinator of `run` is additionally modelled as a
  small-step transition system over counters (work fed, queued, in flight,
  latency samples queued/ingested) with channel-close and done flags.
-/

namespace S3Bench

/-- `const KiB = 1024` from main.go. -/
def KiB : Nat := 1024

/-- `const MiB = 1024 * KiB` from main.go. -/
def MiB : Nat := 1024 * KiB

/-- `type fileSet struct { Size int }` from main.go. -/
structure fileSet where
  Size : Nat
deriving DecidableEq, Repr

/-- The `fileSets` map from main.go, as an association list. -/
def fileSets : List (String × fileSet) :=
  [ ("K001", ⟨KiB⟩)
  , ("K004", ⟨4 * KiB⟩)
  , ("K016", ⟨16 * KiB⟩)
  , ("K064", ⟨64 * KiB⟩)
  , ("K256", ⟨256 * KiB⟩)
  , ("M001", ⟨MiB⟩)
  , ("M004", ⟨4 * MiB⟩)
  , ("M016", ⟨16 * MiB⟩)
  , ("M032", ⟨32 * MiB⟩)
  , ("M064", ⟨64 * MiB⟩)
  , ("M128", ⟨128 * MiB⟩)
  , ("M256", ⟨256 * MiB⟩) ]

/-- `type myConfig struct` from main.go. -/
structure myConfig where
  Count : Nat
  DownloadSizeBytes : Nat
  EC2Instance : String
  FileSetName : String
  Goroutines : Nat
deriving DecidableEq, Repr

/-- The command-line flag values consumed by `parseFlags` (all `pflag.Uint`
or `pflag.String`). -/
structure Flags where
  count : Nat
  instanceType : String
  goroutines : Nat
  set : String
  download : Nat
deriving DecidableEq, Repr

/-- The error taxonomy of the program. Each `log.Fatalf` site and each
returned error is mapped to a distinct constructor. -/
inductive BenchError where
  /-- `log.Fatalf("unknown file set ...")`, `log.Fatalf("downloadMB ... must
  be a multiple ...")`, `log.Fatalf("goroutines ... greater than files ...")`
  in `parseFlags`. -/
  | configurationError
  /-- `log.Fatalf("failed to get page ...")` in `listS3Files`: the
  underlying listing call errored. -/
  | discoveryError
  /-- `errors.New("no S3 files found for file set")` in `buildDownloadList`. -/
  | emptyDatasetError
  /-- `log.Fatal("config results in zero files needed for download; WTF")`
  in `buildDownloadList`. -/
  | zeroFilesFatal
  /-- `log.Fatalf("error downloading ...")` in `downloader`. -/
  | downloadError
deriving DecidableEq, Repr

/-- `parseFlags` from main.go: looks up the file set, checks that the
download volume (MiB flag scaled to bytes) is an exact multiple of the
file-set object size, checks that the goroutine count does not exceed the
number of files to download, and builds the `myConfig`. Every `log.Fatalf`
is modelled as `Except.error .configurationError`. -/
def parseFlags (fl : Flags) : Except BenchError myConfig :=
  match fileSets.lookup fl.set with
  | none => .error .configurationError
  | some fs =>
    let dlSize := fl.download * MiB
    if dlSize % fs.Size ≠ 0 then .error .configurationError
    else
      let dlCount := dlSize / fs.Size
      if fl.goroutines > dlCount then .error .configurationError
      else .ok { Count := fl.count
               , DownloadSizeBytes := dlSize
               , EC2Instance := fl.instanceType
               , FileSetName := fl.set
               , Goroutines := fl.goroutines }

/-- The page loop of `listS3Files`: each page of the ListObjectsV2
paginator either errors (→ `log.Fatalf("failed to get page ...")`, modelled
as `.error .discoveryError`) or contributes its object keys in order. -/
def collectKeys : List (Except String (List String)) → Except BenchError (List String)
  | [] => .ok []
  | .error _ :: _ => .error .discoveryError
  | .ok ks :: rest =>
    match collectKeys rest with
    | .error e => .error e
    | .ok tail => .ok (ks ++ tail)

/-- `listS3Files` from main.go: collect all keys from the paginator pages,
then `rand.Shuffle` the result. The shuffle is nondeterministic, so it is an
oracle parameter `shuffle`; theorems that depend on it assume it permutes
its input, which is what an in-place Fisher–Yates shuffle does. -/
def listS3Files (pages : List (Except String (List String)))
    (shuffle : List String → List String) : Except BenchError (List String) :=
  match collectKeys pages with
  | .error e => .error e
  | .ok files => .ok (shuffle files)

/-- The inner `for _, f := range fileList` pass of the replication loop in
`buildDownloadList`: append each key to the accumulator, returning early
(flag `true`) as soon as the accumulator reaches `needed` entries; flag
`false` means the pass ended without reaching `needed`. -/
def innerPass (needed : Nat) : List String → List String → List String × Bool
  | [], acc => (acc, false)
  | f :: rest, acc =>
    if needed ≤ (acc ++ [f]).length then (acc ++ [f], true)
    else innerPass needed rest (acc ++ [f])

theorem innerPass_length_le (needed : Nat) (fl acc : List String) :
    acc.length ≤ (innerPass needed fl acc).1.length := by
  induction fl generalizing acc with
  | nil => simp [innerPass]
  | cons f rest ih =>
    simp only [innerPass]
    split
    · simp
    · exact le_trans (by simp) (ih (acc ++ [f]))

theorem innerPass_progress (needed : Nat) (f : String) (rest acc : List String) :
    acc.length + 1 ≤ (innerPass needed (f :: rest) acc).1.length := by
  simp only [innerPass]
  split
  · simp
  · exact le_trans (by simp) (innerPass_length_le needed rest (acc ++ [f]))

theorem innerPass_not_done (needed : Nat) (fl acc : List String)
    (h : (innerPass needed fl acc).2 = false) :
    fl = [] ∨ (innerPass needed fl acc).1.length < needed := by
  induction fl generalizing acc with
  | nil => left; rfl
  | cons f rest ih =>
    right
    by_cases hc : needed ≤ acc.length + 1
    · simp [innerPass, hc] at h
    · simp only [innerPass, List.length_append, List.length_singleton, hc, if_false] at h ⊢
      rcases ih (acc ++ [f]) h with h1 | h1
      · subst h1
        simp only [innerPass, List.length_append, List.length_singleton]
        omega
      · exact h1

/-- The outer `for { ... }` loop of `buildDownloadList`: repeat inner passes
until the early return fires. In the Go source the loop diverges when
`fileList` is empty, but that state is unreachable because the caller has
already returned `emptyDatasetError`; the embedding returns the accumulator
in that (unreachable) case to stay total. -/
def outerLoop (needed : Nat) (fileList : List String) (acc : List String) : List String :=
  if hfl : fileList = [] then acc
  else
    match h : innerPass needed fileList acc with
    | (acc2, true) => acc2
    | (acc2, false) =>
      have hlt : acc2.length < needed := by
        rcases innerPass_not_done needed fileList acc (by rw [h]) with h1 | h1
        · exact absurd h1 hfl
        · rw [h] at h1; exact h1
      have hgt : acc.length < acc2.length := by
        obtain ⟨f, rest, rfl⟩ := List.exists_cons_of_ne_nil hfl
        have h2 := innerPass_progress needed f rest acc
        rw [h] at h2
        simpa using h2
      outerLoop needed fileList acc2
termination_by needed - acc.length
decreasing_by simp_wf; omega

/-- Closed form of the replication loop: the first `t` entries of the
infinite cyclic repetition of `fl`, i.e. entry `i` is `fl[i % fl.length]`. -/
def cyc (t : Nat) (fl : List String) : List String :=
  (List.range t).map (fun i => fl.getD (i % fl.length) "")

theorem cyc_length (t : Nat) (fl : List String) : (cyc t fl).length = t := by
  simp [cyc]

theorem cyc_getD (t : Nat) (fl : List String) (i : Nat) (hi : i < t) :
    (cyc t fl).getD i "" = fl.getD (i % fl.length) "" := by
  have hlen : i < (cyc t fl).length := by rw [cyc_length]; exact hi
  rw [List.getD_eq_getElem _ _ hlen]
  simp [cyc, hi]

theorem innerPass_small (needed : Nat) (fl acc : List String)
    (h : acc.length + fl.length < needed) :
    innerPass needed fl acc = (acc ++ fl, false) := by
  induction fl generalizing acc with
  | nil => simp [innerPass]
  | cons f rest ih =>
    have hc : ¬ needed ≤ acc.length + 1 := by simp at h ⊢; omega
    simp only [innerPass, List.length_append, List.length_singleton, hc, if_false]
    rw [ih]
    · simp
    · simp at h ⊢; omega

theorem innerPass_big (needed : Nat) (fl acc : List String)
    (h1 : acc.length < needed) (h2 : needed ≤ acc.length + fl.length) :
    innerPass needed fl acc = (acc ++ fl.take (needed - acc.length), true) := by
  induction fl generalizing acc with
  | nil => simp at h2; omega
  | cons f rest ih =>
    by_cases hc : needed ≤ acc.length + 1
    · have hone : needed - acc.length = 1 := by omega
      simp [innerPass, hc, hone]
    · simp only [innerPass, List.length_append, List.length_singleton, hc, if_false]
      rw [ih]
      · have htake : (f :: rest).take (needed - acc.length)
            = f :: rest.take (needed - (acc.length + 1)) := by
          have : needed - acc.length = (needed - (acc.length + 1)) + 1 := by omega
          rw [this, List.take_succ_cons]
        rw [htake]
        simp
      · simp; omega
      · simp at h2 ⊢; omega

theorem cyc_take (t : Nat) (fl : List String) (h : t ≤ fl.length) :
    cyc t fl = fl.take t := by
  apply List.ext_getElem
  · rw [cyc_length, List.length_take]
    omega
  · intro i h1 h2
    rw [List.length_take] at h2
    have hi : i < t := by omega
    have hmod : i % fl.length = i := Nat.mod_eq_of_lt (by omega)
    simp only [cyc, List.getElem_map, List.getElem_range, List.getElem_take, hmod]
    rw [List.getD_eq_getElem _ _ (by omega)]

theorem cyc_cycle (t : Nat) (fl : List String) (hfl : fl ≠ [])
    (h : fl.length ≤ t) :
    cyc t fl = fl ++ cyc (t - fl.length) fl := by
  have hM : 0 < fl.length := List.length_pos.mpr hfl
  apply List.ext_getElem
  · rw [cyc_length, List.length_append, cyc_length]
    omega
  · intro i h1 h2
    rw [cyc_length] at h1
    simp only [cyc, List.getElem_map, List.getElem_range]
    rcases lt_or_le i fl.length with hi | hi
    · have hmod : i % fl.length = i := Nat.mod_eq_of_lt hi
      rw [List.getElem_append_left hi, hmod, List.getD_eq_getElem _ _ hi]
    · rw [List.getElem_append_right hi]
      simp only [cyc, List.getElem_map, List.getElem_range]
      congr 1
      exact (Nat.mod_eq_sub_mod hi).symm ▸ rfl

theorem cyc_count (t : Nat) (fl : List String) (k : String) (hk : k ∈ fl) :
    t / fl.length ≤ (cyc t fl).count k := by
  have hfl : fl ≠ [] := List.ne_nil_of_mem hk
  have hM : 0 < fl.length := List.length_pos.mpr hfl
  induction t using Nat.strong_induction_on with
  | _ t ih =>
    rcases lt_or_le t fl.length with hlt | hge
    · rw [Nat.div_eq_of_lt hlt]
      exact Nat.zero_le _
    · rw [cyc_cycle t fl hfl hge, List.count_append]
      have h1 : 1 ≤ fl.count k := List.count_pos_iff.mpr hk
      have h2 := ih (t - fl.length) (by omega)
      have h3 : t / fl.length = (t - fl.length) / fl.length + 1 :=
        Nat.div_eq_sub_div hM hge
      omega

theorem outerLoop_eq_cyc_aux (needed : Nat) (fl : List String) (hfl : fl ≠ []) :
    ∀ (m : Nat) (acc : List String), acc.length < needed → needed - acc.length ≤ m →
      outerLoop needed fl acc = acc ++ cyc (needed - acc.length) fl := by
  intro m
  induction m with
  | zero => intro acc h1 h2; omega
  | succ m ih =>
    intro acc h1 h2
    rw [outerLoop.eq_def, dif_neg hfl]
    split
    · rename_i acc2 heq
      by_cases hc : needed ≤ acc.length + fl.length
      · rw [innerPass_big needed fl acc h1 hc] at heq
        injection heq with h3 h4
        rw [← h3, cyc_take _ _ (by omega)]
      · rw [innerPass_small needed fl acc (by omega)] at heq
        injection heq with h3 h4
        exact absurd h4 (by simp)
    · rename_i acc2 heq
      show outerLoop needed fl acc2 = acc ++ cyc (needed - acc.length) fl
      by_cases hc : needed ≤ acc.length + fl.length
      · rw [innerPass_big needed fl acc h1 hc] at heq
        injection heq with h3 h4
        exact absurd h4 (by simp)
      · rw [innerPass_small needed fl acc (by omega)] at heq
        injection heq with h3 h4
        subst h3
        have hflpos : 0 < fl.length := List.length_pos.mpr hfl
        rw [ih (acc ++ fl) (by simp; omega) (by simp; omega)]
        rw [cyc_cycle (needed - acc.length) fl hfl (by omega)]
        have harith : needed - (acc ++ fl).length = needed - acc.length - fl.length := by
          simp only [List.length_append]
          omega
        rw [harith, List.append_assoc]

/-- `buildDownloadList` from main.go: list-and-shuffle the keys, fail with
`emptyDatasetError` when zero keys were found, fail (fatally in Go) when
the config needs zero files, otherwise cycle the shuffled list until
`numFilesNeeded` keys have been gathered. -/
def buildDownloadList (cfg : myConfig) (pages : List (Except String (List String)))
    (shuffle : List String → List String) : Except BenchError (List String) :=
  match listS3Files pages shuffle with
  | .error e => .error e
  | .ok fileList =>
    if fileList.length = 0 then .error .emptyDatasetError
    else
      let numFilesNeeded := cfg.DownloadSizeBytes / ((fileSets.lookup cfg.FileSetName).getD ⟨0⟩).Size
      if numFilesNeeded = 0 then .error .zeroFilesFatal
      else .ok (outerLoop numFilesNeeded fileList [])

/-- `type Datapoint struct` from main.go. Go `float64` fields are modelled
as rationals; the JSON serialization itself is not modelled. -/
structure Datapoint where
  EC2Instance : String
  FileSizeBytes : Nat
  FileSizeLabel : String
  Goroutines : Nat
  TotalSizeBytes : Nat
  ElapsedSecs : ℚ
  P50Latency : ℚ
  P95Latency : ℚ
  P99Latency : ℚ
  ThroughputMiBs : ℚ
deriving DecidableEq, Repr

/-- Events of one iteration of the `downloader` loop body, in program
order. -/
inductive DlEvent where
  /-- `s3Client.GetObject(...)` is called (just after `start := time.Now()`). -/
  | requestIssued
  /-- `GetObject` returns: response headers received, body not yet read. -/
  | responseReceived
  /-- `latency <- time.Since(start).Seconds()` pushes the sample. -/
  | sampleEmitted (v : ℚ)
  /-- `io.Copy(io.Discard, resp.Body)` fully consumes and discards the body. -/
  | bodyConsumed
deriving DecidableEq, Repr

/-- Oracle describing what the external world does for one `GetObject`:
the wall-clock time `t0` when the iteration started, the fetch result
(an error, or the time `t1` at which the call returned with response
headers), and whether the subsequent body read succeeded. -/
structure FetchOutcome where
  t0 : ℚ
  result : Except Unit ℚ
  bodyOk : Bool

/-- One iteration of the `downloader` loop from main.go: on a `GetObject`
error, `log.Fatalf` aborts (modelled as `.error .downloadError`); otherwise
the latency sample `time.Since(start)` is pushed and then the body is
consumed. The result of `io.Copy` (`it.bodyOk`) is discarded, exactly as
the Go code ignores it. -/
def processItem (it : FetchOutcome) : Except BenchError (List DlEvent × ℚ) :=
  match it.result with
  | .error _ => .error .downloadError
  | .ok t1 =>
    .ok ([.requestIssued, .responseReceived, .sampleEmitted (t1 - it.t0), .bodyConsumed],
         t1 - it.t0)

/-- The download phase of a run: every key of the work list is fetched
exactly once (sequential abstraction of the pool draining the work
channel); the first `GetObject` error aborts the run (`log.Fatalf` in
`downloader`); body-read outcomes (`bodyOk`) are ignored as in the code. -/
def downloadPhase (fetch : String → Except Unit ℚ) (bodyOk : String → Bool) :
    List String → Except BenchError (List ℚ)
  | [] => .ok []
  | f :: rest =>
    match fetch f with
    | .error _ => .error .downloadError
    | .ok lat =>
      let _ := bodyOk f
      match downloadPhase fetch bodyOk rest with
      | .error e => .error e
      | .ok tail => .ok (lat :: tail)

/-- `run` from main.go, as a function of the external oracles: build the
download list, download every key (collecting the latency samples), then
assemble the `Datapoint` from the config, the quantile sketch (`quantile`
oracle standing for the tdigest) and the elapsed wall-clock time. Any
error yields a non-zero process exit with no `Datapoint`. -/
def run (cfg : myConfig) (pages : List (Except String (List String)))
    (shuffle : List String → List String) (fetch : String → Except Unit ℚ)
    (bodyOk : String → Bool) (quantile : List ℚ → ℚ → ℚ) (elapsedSec : ℚ) :
    Except BenchError Datapoint :=
  match buildDownloadList cfg pages shuffle with
  | .error e => .error e
  | .ok downloadList =>
    match downloadPhase fetch bodyOk downloadList with
    | .error e => .error e
    | .ok samples =>
      .ok { EC2Instance := cfg.EC2Instance
          , FileSizeBytes := ((fileSets.lookup cfg.FileSetName).getD ⟨0⟩).Size
          , FileSizeLabel := cfg.FileSetName
          , Goroutines := cfg.Goroutines
          , TotalSizeBytes := cfg.DownloadSizeBytes
          , ElapsedSecs := elapsedSec
          , P50Latency := quantile samples (50 / 100)
          , P95Latency := quantile samples (95 / 100)
          , P99Latency := quantile samples (99 / 100)
          , ThroughputMiBs := (cfg.DownloadSizeBytes : ℚ) / (MiB : ℚ) / elapsedSec }

/-- The `for i := 0; i < cfg.Count; i++ { ec += run(cfg) }` loop of `main`:
each repetition is a fresh run; a fatal error in any run aborts the whole
process. -/
def runLoop (cfg : myConfig) (pages : List (Except String (List String)))
    (shuffle : List String → List String) (fetch : String → Except Unit ℚ)
    (bodyOk : String → Bool) (quantile : List ℚ → ℚ → ℚ) (elapsedSec : ℚ) :
    Nat → Except BenchError (List Datapoint)
  | 0 => .ok []
  | n + 1 =>
    match run cfg pages shuffle fetch bodyOk quantile elapsedSec with
    | .error e => .error e
    | .ok d =>
      match runLoop cfg pages shuffle fetch bodyOk quantile elapsedSec n with
      | .error e => .error e
      | .ok ds => .ok (d :: ds)

/-- `main` from main.go (minus the pprof listener): parse and validate the
flags, then loop `run` `Count` times. Flag validation happens before any
of the network oracles is consulted. -/
def mainModel (fl : Flags) (pages : List (Except String (List String)))
    (shuffle : List String → List String) (fetch : String → Except Unit ℚ)
    (bodyOk : String → Bool) (quantile : List ℚ → ℚ → ℚ) (elapsedSec : ℚ) :
    Except BenchError (List Datapoint) :=
  match parseFlags fl with
  | .error e => .error e
  | .ok cfg => runLoop cfg pages shuffle fetch bodyOk quantile elapsedSec cfg.Count

/-- `chanSize` from `run`: channels are buffered by the goroutine count,
capped at 1024. -/
def chanSize (goroutines : Nat) : Nat :=
  if goroutines > 1024 then 1024 else goroutines

/-- Abstract state of the concurrent part of `run`: the feeder goroutine,
the `work` channel, the `N` `downloader` goroutines, the `latency` channel,
the collector goroutine, and the coordinator's final phase. Only counts
matter for the claims proved here.

Fields: `toFeed` = work items the feeder has not yet pushed; `workQ` =
items buffered in the `work` channel; `workClosed` = `close(work)` has
happened; `inFlight` = items received by a downloader whose latency sample
has not yet been pushed; `latQ` = samples buffered in the `latency`
channel; `latClosed` = `close(latency)` has happened; `ingested` = samples
the collector has passed to `td.Add`; `collectorDone` = `close(latencyDone)`
has happened; `quantRead` = the coordinator has called `td.Quantile`;
`emitted` = the `Datapoint` has been printed; `aborted` = some goroutine
called `log.Fatalf` (non-zero process exit, nothing further runs). -/
structure RunState where
  toFeed : Nat
  workQ : Nat
  workClosed : Bool
  inFlight : Nat
  latQ : Nat
  latClosed : Bool
  ingested : Nat
  collectorDone : Bool
  quantRead : Bool
  emitted : Bool
  aborted : Bool
deriving DecidableEq, Repr

/-- Initial state of a run with a work list of length `L`. -/
def initState (L : Nat) : RunState :=
  { toFeed := L, workQ := 0, workClosed := false, inFlight := 0, latQ := 0
  , latClosed := false, ingested := 0, collectorDone := false, quantRead := false
  , emitted := false, aborted := false }

/-- One scheduler step of `run` with `N` workers and channel capacity
`cap`. Channel sends block on a full buffer (`workQ < cap`, `latQ < cap`);
`range` receives block on an empty one; `close` is modelled by the flags.
`log.Fatalf` (the `fail` step, a `GetObject` error in some worker) stops
the whole process, so no step is enabled in an aborted state. -/
inductive Step (N cap : Nat) : RunState → RunState → Prop
  /-- The feeder pushes the next work item into the `work` channel. -/
  | feed (s : RunState) (h : s.aborted = false) (h1 : 0 < s.toFeed) (h2 : s.workQ < cap) :
      Step N cap s { s with toFeed := s.toFeed - 1, workQ := s.workQ + 1 }
  /-- The feeder has pushed everything and calls `close(work)`. -/
  | closeWork (s : RunState) (h : s.aborted = false) (h1 : s.toFeed = 0)
      (h2 : s.workClosed = false) :
      Step N cap s { s with workClosed := true }
  /-- An idle downloader receives a work item from the `work` channel. -/
  | take (s : RunState) (h : s.aborted = false) (h1 : 0 < s.workQ) (h2 : s.inFlight < N) :
      Step N cap s { s with workQ := s.workQ - 1, inFlight := s.inFlight + 1 }
  /-- A downloader's `GetObject` succeeded and it pushes the latency
  sample into the `latency` channel. -/
  | emitSample (s : RunState) (h : s.aborted = false) (h1 : 0 < s.inFlight)
      (h2 : s.latQ < cap) :
      Step N cap s { s with inFlight := s.inFlight - 1, latQ := s.latQ + 1 }
  /-- A downloader's `GetObject` failed: `log.Fatalf` kills the process. -/
  | fail (s : RunState) (h : s.aborted = false) (h1 : 0 < s.inFlight) :
      Step N cap s { s with aborted := true }
  /-- The collector receives a sample and calls `td.Add`. -/
  | ingest (s : RunState) (h : s.aborted = false) (h1 : 0 < s.latQ) :
      Step N cap s { s with latQ := s.latQ - 1, ingested := s.ingested + 1 }
  /-- `wg.Wait()` has returned and the coordinator calls `close(latency)`.
  With `N = 0` no worker goroutine was ever started, so `wg.Wait()` returns
  immediately, whatever the feeder has done; with `N ≥ 1` workers it
  returns only once every worker's `range work` loop has exited, which
  requires the work channel closed and drained with no item in flight. -/
  | closeLat (s : RunState) (h : s.aborted = false)
      (h1 : N = 0 ∨ (s.workClosed = true ∧ s.workQ = 0 ∧ s.inFlight = 0))
      (h2 : s.latClosed = false) :
      Step N cap s { s with latClosed := true }
  /-- The collector's `range latency` loop exits (channel closed and
  drained) and it calls `close(latencyDone)`. -/
  | collectorFinish (s : RunState) (h : s.aborted = false) (h1 : s.latClosed = true)
      (h2 : s.latQ = 0) (h3 : s.collectorDone = false) :
      Step N cap s { s with collectorDone := true }
  /-- `<-latencyDone` has returned and the coordinator reads
  `td.Quantile(0.50/0.95/0.99)` for the datapoint. -/
  | readQuant (s : RunState) (h : s.aborted = false) (h1 : s.collectorDone = true)
      (h2 : s.quantRead = false) :
      Step N cap s { s with quantRead := true }
  /-- The coordinator prints the JSON-encoded `Datapoint`. -/
  | emitDatapoint (s : RunState) (h : s.aborted = false) (h1 : s.quantRead = true)
      (h2 : s.emitted = false) :
      Step N cap s { s with emitted := true }

/-- States reachable in a run of work-list length `L` with `N` workers and
channel capacity `cap`. -/
inductive Reachable (L N cap : Nat) : RunState → Prop
  | init : Reachable L N cap (initState L)
  | step {s s' : RunState} (hs : Reachable L N cap s) (h : Step N cap s s') :
      Reachable L N cap s'

/-- The inductive invariant of the run pipeline: samples are conserved
(every work item is in exactly one of the five stations), at most `N`
items are in flight, and the close/done/read/emit flags are ordered as the
coordinator's program order dictates. With zero workers `close(latency)`
needs no precondition (`wg.Wait` returns at once), so the `latClosed`
conjunct carries the `N = 0` disjunct. -/
def Inv (L N : Nat) (s : RunState) : Prop :=
  (s.aborted = false → s.toFeed + s.workQ + s.inFlight + s.latQ + s.ingested = L)
  ∧ s.inFlight ≤ N
  ∧ (s.workClosed = true → s.toFeed = 0)
  ∧ (s.latClosed = true →
      N = 0 ∨ (s.workClosed = true ∧ s.toFeed = 0 ∧ s.workQ = 0 ∧ s.inFlight = 0))
  ∧ (s.collectorDone = true → s.latClosed = true ∧ s.latQ = 0 ∧ s.aborted = false)
  ∧ (s.quantRead = true → s.collectorDone = true)
  ∧ (s.emitted = true → s.quantRead = true)
  ∧ (s.aborted = true → s.emitted = false)

theorem inv_init (L N : Nat) : Inv L N (initState L) := by
  simp [Inv, initState]

theorem inv_step {L N cap : Nat} {s s' : RunState} (hinv : Inv L N s)
    (hstep : Step N cap s s') : Inv L N s' := by
  obtain ⟨i1, i2, i3, i4, i5, i6, i7, i8⟩ := hinv
  cases hstep with
  | feed h h1 h2 =>
    refine ⟨?_, i2, ?_, ?_, i5, i6, i7, i8⟩ <;> dsimp only
    · intro ha; have hs := i1 ha; omega
    · intro hw; have hz := i3 hw; omega
    · intro hl
      rcases i4 hl with h0 | hrest
      · exact Or.inl h0
      · exact absurd hrest.2.1 (by omega)
  | closeWork h h1 h2 =>
    refine ⟨i1, i2, ?_, ?_, i5, i6, i7, i8⟩ <;> dsimp only
    · intro hw; exact h1
    · intro hl
      rcases i4 hl with h0 | hrest
      · exact Or.inl h0
      · exact Or.inr ⟨rfl, hrest.2⟩
  | take h h1 h2 =>
    refine ⟨?_, ?_, i3, ?_, i5, i6, i7, i8⟩ <;> dsimp only
    · intro ha; have hs := i1 ha; omega
    · omega
    · intro hl
      rcases i4 hl with h0 | hrest
      · exact absurd h2 (by omega)
      · exact absurd hrest.2.2.1 (by omega)
  | emitSample h h1 h2 =>
    refine ⟨?_, ?_, i3, ?_, ?_, i6, i7, i8⟩ <;> dsimp only
    · intro ha; have hs := i1 ha; omega
    · omega
    · intro hl
      rcases i4 hl with h0 | hrest
      · exact absurd i2 (by omega)
      · exact absurd hrest.2.2.2 (by omega)
    · intro hc
      rcases i4 (i5 hc).1 with h0 | hrest
      · exact absurd i2 (by omega)
      · exact absurd hrest.2.2.2 (by omega)
  | fail h h1 =>
    refine ⟨?_, i2, i3, i4, ?_, i6, i7, ?_⟩ <;> dsimp only
    · intro ha; simp at ha
    · intro hc
      rcases i4 (i5 hc).1 with h0 | hrest
      · exact absurd i2 (by omega)
      · exact absurd hrest.2.2.2 (by omega)
    · intro hab
      cases hem : RunState.emitted _ with
      | false => rfl
      | true =>
        rcases i4 (i5 (i6 (i7 hem))).1 with h0 | hrest
        · exact absurd i2 (by omega)
        · exact absurd hrest.2.2.2 (by omega)
  | ingest h h1 =>
    refine ⟨?_, i2, i3, i4, ?_, i6, i7, i8⟩ <;> dsimp only
    · intro ha; have hs := i1 ha; omega
    · intro hc; exact absurd (i5 hc).2.1 (by omega)
  | closeLat h h1 h2 =>
    refine ⟨i1, i2, i3, ?_, ?_, i6, i7, i8⟩ <;> dsimp only
    · intro hl
      rcases h1 with h0 | ⟨hwc, hwq, hif⟩
      · exact Or.inl h0
      · exact Or.inr ⟨hwc, i3 hwc, hwq, hif⟩
    · intro hc; exact ⟨rfl, (i5 hc).2⟩
  | collectorFinish h h1 h2 h3 =>
    refine ⟨i1, i2, i3, i4, ?_, ?_, i7, i8⟩ <;> dsimp only
    · intro hc; exact ⟨h1, h2, h⟩
    · intro hq; rfl
  | readQuant h h1 h2 =>
    refine ⟨i1, i2, i3, i4, i5, ?_, ?_, i8⟩ <;> dsimp only
    · intro hq; exact h1
    · intro he; rfl
  | emitDatapoint h h1 h2 =>
    refine ⟨i1, i2, i3, i4, i5, i6, ?_, ?_⟩ <;> dsimp only
    · intro he; exact h1
    · intro hab; simp [hab] at h

theorem reachable_inv {L N cap : Nat} {s : RunState}
    (hr : Reachable L N cap s) : Inv L N s := by
  induction hr with
  | init => exact inv_init L N
  | step hs h ih => exact inv_step ih h

theorem fileSets_size_pos {name : String} {fs : fileSet}
    (h : fileSets.lookup name = some fs) : 0 < fs.Size := by
  simp only [fileSets, List.lookup] at h
  repeat' split at h
  all_goals first
    | (injection h with h; subst h; decide)
    | cases h

theorem shuffle_ne_nil {shuffle : List String → List String} {keys : List String}
    (hperm : ∀ l, (shuffle l).Perm l) (hne : keys ≠ []) : shuffle keys ≠ [] := by
  intro hc
  have hl := (hperm keys).length_eq
  rw [hc] at hl
  exact hne (List.eq_nil_of_length_eq_zero hl.symm)

theorem numFilesNeeded_pos {cfg : myConfig} {fs : fileSet}
    (hfs : fileSets.lookup cfg.FileSetName = some fs)
    (hdvd : cfg.DownloadSizeBytes % fs.Size = 0)
    (hpos : 0 < cfg.DownloadSizeBytes) :
    0 < cfg.DownloadSizeBytes / fs.Size := by
  apply Nat.div_pos _ (fileSets_size_pos hfs)
  exact Nat.le_of_dvd hpos (Nat.dvd_of_mod_eq_zero hdvd)

theorem buildDownloadList_eq_cyc (cfg : myConfig) (fs : fileSet)
    (pages : List (Except String (List String))) (shuffle : List String → List String)
    (keys : List String)
    (hfs : fileSets.lookup cfg.FileSetName = some fs)
    (hdvd : cfg.DownloadSizeBytes % fs.Size = 0)
    (hpos : 0 < cfg.DownloadSizeBytes)
    (hkeys : collectKeys pages = .ok keys)
    (hne : keys ≠ [])
    (hperm : ∀ l, (shuffle l).Perm l) :
    buildDownloadList cfg pages shuffle
      = .ok (cyc (cfg.DownloadSizeBytes / fs.Size) (shuffle keys)) := by
  have hshne : shuffle keys ≠ [] := shuffle_ne_nil hperm hne
  have hn : 0 < cfg.DownloadSizeBytes / fs.Size := numFilesNeeded_pos hfs hdvd hpos
  unfold buildDownloadList listS3Files
  rw [hkeys]
  simp only [hfs, Option.getD_some]
  rw [if_neg (by simpa using hshne), if_neg (by omega)]
  rw [outerLoop_eq_cyc_aux (cfg.DownloadSizeBytes / fs.Size) (shuffle keys) hshne
    (cfg.DownloadSizeBytes / fs.Size) [] (by simpa using hn) (by simp)]
  simp

/-- Claim C1 (amended): for every configuration whose download volume is a
positive exact multiple of the file-set object size, and every non-empty
discovered key list, `buildDownloadList` returns a work list of length
exactly `DownloadSizeBytes / fileSet.Size`. -/
theorem buildDownloadList_length (cfg : myConfig) (fs : fileSet)
    (pages : List (Except String (List String))) (shuffle : List String → List String)
    (keys : List String)
    (hfs : fileSets.lookup cfg.FileSetName = some fs)
    (hdvd : cfg.DownloadSizeBytes % fs.Size = 0)
    (hpos : 0 < cfg.DownloadSizeBytes)
    (hkeys : collectKeys pages = .ok keys)
    (hne : keys ≠ [])
    (hperm : ∀ l, (shuffle l).Perm l) :
    ∃ wl, buildDownloadList cfg pages shuffle = .ok wl ∧
      wl.length = cfg.DownloadSizeBytes / fs.Size := by
  refine ⟨_, buildDownloadList_eq_cyc cfg fs pages shuffle keys hfs hdvd hpos hkeys hne hperm, ?_⟩
  exact cyc_length _ _

/-- Claim C1 witness: the "M001" file set (1 MiB objects), a 5 MiB download
volume and two discovered keys give a work list of exactly 5 keys. -/
theorem buildDownloadList_length_witness :
    ∃ wl, buildDownloadList
        { Count := 1, DownloadSizeBytes := 5 * MiB, EC2Instance := "c5",
          FileSetName := "M001", Goroutines := 2 }
        [Except.ok ["a", "b"]] id = .ok wl ∧
      wl.length = 5 * MiB / MiB :=
  buildDownloadList_length _ ⟨MiB⟩ _ id ["a", "b"] (by decide) (by decide)
    (by decide) rfl (by decide) (fun l => List.Perm.refl l)

/-- Claim C1 counterexample: a download volume of 0 bytes is an exact
multiple of the M001 object size and passes the whole flag validation
(with zero goroutines, since `0 > 0` is false), yet on a non-empty key
list `buildDownloadList` hits `log.Fatal("config results in zero files
needed for download; WTF")` — a fatal abort — instead of returning the
(empty) work list of length `TotalVolumeBytes / Size = 0`. -/
theorem buildDownloadList_zero_volume_cex :
    parseFlags { count := 1, instanceType := "c5", goroutines := 0,
                 set := "M001", download := 0 }
      = .ok { Count := 1, DownloadSizeBytes := 0, EC2Instance := "c5",
              FileSetName := "M001", Goroutines := 0 } ∧
    buildDownloadList
        { Count := 1, DownloadSizeBytes := 0, EC2Instance := "c5",
          FileSetName := "M001", Goroutines := 0 }
        [Except.ok ["a"]] id = .error .zeroFilesFatal ∧
    (Except.error BenchError.zeroFilesFatal
      ≠ (Except.ok [] : Except BenchError (List String))) :=
  ⟨rfl, rfl, by simp⟩

/-- Claim C2: the work list cycles the shuffled key list: its length is
exactly `numFilesNeeded`, position `i` holds the shuffled list's entry
`i % M` (`M` = number of discovered keys), and consequently every
discovered key occurs at least `numFilesNeeded / M` times. -/
theorem buildDownloadList_cycles (cfg : myConfig) (fs : fileSet)
    (pages : List (Except String (List String))) (shuffle : List String → List String)
    (keys : List String)
    (hfs : fileSets.lookup cfg.FileSetName = some fs)
    (hdvd : cfg.DownloadSizeBytes % fs.Size = 0)
    (hpos : 0 < cfg.DownloadSizeBytes)
    (hkeys : collectKeys pages = .ok keys)
    (hne : keys ≠ [])
    (hperm : ∀ l, (shuffle l).Perm l) :
    ∃ wl, buildDownloadList cfg pages shuffle = .ok wl ∧
      wl.length = cfg.DownloadSizeBytes / fs.Size ∧
      (∀ i < cfg.DownloadSizeBytes / fs.Size,
        wl.getD i "" = (shuffle keys).getD (i % (shuffle keys).length) "") ∧
      (∀ k ∈ shuffle keys,
        (cfg.DownloadSizeBytes / fs.Size) / (shuffle keys).length ≤ wl.count k) := by
  refine ⟨_, buildDownloadList_eq_cyc cfg fs pages shuffle keys hfs hdvd hpos hkeys hne hperm,
    cyc_length _ _, ?_, ?_⟩
  · intro i hi
    exact cyc_getD _ _ i hi
  · intro k hk
    exact cyc_count _ _ k hk

/-- Claim C2 witness: with shuffled keys `["a", "b"]` and 5 files needed,
the work list is `a b a b a`: position `i` holds key `i % 2` and each key
appears at least `5 / 2 = 2` times. -/
theorem buildDownloadList_cycles_witness :
    ∃ wl, buildDownloadList
        { Count := 1, DownloadSizeBytes := 5 * MiB, EC2Instance := "c5",
          FileSetName := "M001", Goroutines := 2 }
        [Except.ok ["a", "b"]] id = .ok wl ∧
      wl.length = 5 * MiB / MiB ∧
      (∀ i < 5 * MiB / MiB,
        wl.getD i "" = (id ["a", "b"]).getD (i % (id ["a", "b"]).length) "") ∧
      (∀ k ∈ id ["a", "b"], (5 * MiB / MiB) / (id ["a", "b"]).length ≤ wl.count k) :=
  buildDownloadList_cycles _ ⟨MiB⟩ _ id ["a", "b"] (by decide) (by decide)
    (by decide) rfl (by decide) (fun l => List.Perm.refl l)

theorem star_reachable {L N cap : Nat} {s s' : RunState}
    (hr : Reachable L N cap s) (hss : Relation.ReflTransGen (Step N cap) s s') :
    Reachable L N cap s' := by
  induction hss with
  | refl => exact hr
  | tail hab hbc ih => exact Reachable.step ih hbc

theorem step_quantRead_mono {N cap : Nat} {s s' : RunState}
    (h : Step N cap s s') (hq : s.quantRead = true) : s'.quantRead = true := by
  cases h <;> first | exact hq | rfl

theorem star_quantRead_mono {N cap : Nat} {s s' : RunState}
    (hss : Relation.ReflTransGen (Step N cap) s s') (hq : s.quantRead = true) :
    s'.quantRead = true := by
  induction hss with
  | refl => exact hq
  | tail hab hbc ih => exact step_quantRead_mono hbc ih

/-- Claim C3 (amended): in every reachable state of a run over a work list
of length `L`, each work item sits in exactly one pipeline station (still
to feed, buffered in the work channel, in flight in a worker, buffered in
the latency channel, or ingested), and for every worker count `N ≥ 1`,
when the collector observes the latency channel closed and drained
(`collectorDone`), it has ingested exactly `L` samples. -/
theorem collector_ingests_exactly (L N cap : Nat) (s : RunState)
    (hN : 1 ≤ N) (hr : Reachable L N cap s) :
    (s.aborted = false →
      s.toFeed + s.workQ + s.inFlight + s.latQ + s.ingested = L) ∧
    (s.collectorDone = true → s.ingested = L) := by
  obtain ⟨i1, i2, i3, i4, i5, i6, i7, i8⟩ := reachable_inv hr
  refine ⟨i1, fun hc => ?_⟩
  obtain ⟨hl, hq0, hab⟩ := i5 hc
  have hsum := i1 hab
  rcases i4 hl with h0 | ⟨hwc, htf, hwq, hif⟩
  · omega
  · omega

/-- Claim C3 counterexample: `parseFlags` accepts `--goroutines=0` (the
check is only `goroutines > dlCount`), and with zero workers `wg.Wait()`
returns immediately, so the run closes the latency channel and the
collector finishes with the whole work list unfed: a reachable state with
`collectorDone = true` and `0` of the `L = 1` samples ingested, refuting
"regardless of N". -/
theorem collector_zero_workers_cex :
    Reachable 1 0 0
      { toFeed := 1, workQ := 0, workClosed := false, inFlight := 0, latQ := 0,
        latClosed := true, ingested := 0, collectorDone := true, quantRead := false,
        emitted := false, aborted := false } ∧
    ({ toFeed := 1, workQ := 0, workClosed := false, inFlight := 0, latQ := 0,
       latClosed := true, ingested := 0, collectorDone := true, quantRead := false,
       emitted := false, aborted := false } : RunState).collectorDone = true ∧
    ({ toFeed := 1, workQ := 0, workClosed := false, inFlight := 0, latQ := 0,
       latClosed := true, ingested := 0, collectorDone := true, quantRead := false,
       emitted := false, aborted := false } : RunState).ingested = 0 ∧
    (0 : Nat) ≠ 1 := by
  refine ⟨?_, rfl, rfl, by omega⟩
  have h0 : Reachable 1 0 0 (initState 1) := Reachable.init
  have h1 := Reachable.step h0 (Step.closeLat _ rfl (Or.inl rfl) rfl)
  exact Reachable.step h1 (Step.collectorFinish _ rfl rfl rfl rfl)

/-- Claim C3 witness: a complete run with `L = 1`, `N = 1` reaches
`collectorDone` having ingested exactly 1 sample. -/
theorem collector_ingests_exactly_witness :
    ({ toFeed := 0, workQ := 0, workClosed := true, inFlight := 0, latQ := 0,
       latClosed := true, ingested := 1, collectorDone := true, quantRead := false,
       emitted := false, aborted := false } : RunState).ingested = 1 := by
  have h0 : Reachable 1 1 1 (initState 1) := Reachable.init
  have h1 := Reachable.step h0 (Step.feed _ rfl (by decide) (by decide))
  have h2 := Reachable.step h1 (Step.closeWork _ rfl rfl rfl)
  have h3 := Reachable.step h2 (Step.take _ rfl (by decide) (by decide))
  have h4 := Reachable.step h3 (Step.emitSample _ rfl (by decide) (by decide))
  have h5 := Reachable.step h4 (Step.ingest _ rfl (by decide))
  have h6 := Reachable.step h5 (Step.closeLat _ rfl (Or.inr ⟨rfl, rfl, rfl⟩) rfl)
  have h7 := Reachable.step h6 (Step.collectorFinish _ rfl rfl rfl rfl)
  exact (collector_ingests_exactly 1 1 1 _ (by decide) h7).2 rfl

/-- Claim C4 (amended): for every worker count `N ≥ 1`, once the
coordinator has read the quantiles (`quantRead`, which its program order
places after `wg.Wait()`, `close(latency)` and `<-latencyDone`), the
collector is done, the latency channel is closed and empty, every one of
the `L` samples has been ingested, and in every state reachable from there
the ingested count stays `L` with the latency channel empty — no ingestion
after any quantile read. -/
theorem quantile_reads_after_ingestion (L N cap : Nat) (s s' : RunState)
    (hN : 1 ≤ N) (hr : Reachable L N cap s) (hq : s.quantRead = true)
    (hss : Relation.ReflTransGen (Step N cap) s s') :
    s.collectorDone = true ∧ s.latClosed = true ∧ s.ingested = L ∧ s.latQ = 0 ∧
    s'.ingested = L ∧ s'.latQ = 0 := by
  obtain ⟨i1, i2, i3, i4, i5, i6, i7, i8⟩ := reachable_inv hr
  have hc := i6 hq
  obtain ⟨hl, hq0, hab⟩ := i5 hc
  have hsum := i1 hab
  have hing : s.ingested = L := by
    rcases i4 hl with h0 | ⟨hwc, htf, hwq, hif⟩ <;> omega
  have hr' := star_reachable hr hss
  have hq' : s'.quantRead = true := star_quantRead_mono hss hq
  obtain ⟨j1, j2, j3, j4, j5, j6, j7, j8⟩ := reachable_inv hr'
  obtain ⟨hl', hq0', hab'⟩ := j5 (j6 hq')
  have hsum' := j1 hab'
  have hing' : s'.ingested = L := by
    rcases j4 hl' with h0 | ⟨hwc', htf', hwq', hif'⟩ <;> omega
  exact ⟨hc, hl, hing, hq0, hing', hq0'⟩

/-- Claim C4 counterexample: with zero workers (accepted by `parseFlags`)
the coordinator reaches the quantile read having ingested `0` of the
`L = 1` samples — the claim "every latency sample has been ingested before
the first Quantile call" fails at `N = 0`. -/
theorem quantile_zero_workers_cex :
    Reachable 1 0 0
      { toFeed := 1, workQ := 0, workClosed := false, inFlight := 0, latQ := 0,
        latClosed := true, ingested := 0, collectorDone := true, quantRead := true,
        emitted := false, aborted := false } ∧
    ({ toFeed := 1, workQ := 0, workClosed := false, inFlight := 0, latQ := 0,
       latClosed := true, ingested := 0, collectorDone := true, quantRead := true,
       emitted := false, aborted := false } : RunState).quantRead = true ∧
    ({ toFeed := 1, workQ := 0, workClosed := false, inFlight := 0, latQ := 0,
       latClosed := true, ingested := 0, collectorDone := true, quantRead := true,
       emitted := false, aborted := false } : RunState).ingested = 0 ∧
    (0 : Nat) ≠ 1 := by
  refine ⟨?_, rfl, rfl, by omega⟩
  have h0 : Reachable 1 0 0 (initState 1) := Reachable.init
  have h1 := Reachable.step h0 (Step.closeLat _ rfl (Or.inl rfl) rfl)
  have h2 := Reachable.step h1 (Step.collectorFinish _ rfl rfl rfl rfl)
  exact Reachable.step h2 (Step.readQuant _ rfl rfl rfl)

/-- Claim C4 witness: the complete `L = 1` run, after the quantile read,
has ingested exactly 1 sample and the latency channel is closed and empty. -/
theorem quantile_reads_after_ingestion_witness :
    ({ toFeed := 0, workQ := 0, workClosed := true, inFlight := 0, latQ := 0,
       latClosed := true, ingested := 1, collectorDone := true, quantRead := true,
       emitted := false, aborted := false } : RunState).collectorDone = true ∧
    ({ toFeed := 0, workQ := 0, workClosed := true, inFlight := 0, latQ := 0,
       latClosed := true, ingested := 1, collectorDone := true, quantRead := true,
       emitted := false, aborted := false } : RunState).latClosed = true ∧
    ({ toFeed := 0, workQ := 0, workClosed := true, inFlight := 0, latQ := 0,
       latClosed := true, ingested := 1, collectorDone := true, quantRead := true,
       emitted := false, aborted := false } : RunState).ingested = 1 ∧
    ({ toFeed := 0, workQ := 0, workClosed := true, inFlight := 0, latQ := 0,
       latClosed := true, ingested := 1, collectorDone := true, quantRead := true,
       emitted := false, aborted := false } : RunState).latQ = 0 ∧
    ({ toFeed := 0, workQ := 0, workClosed := true, inFlight := 0, latQ := 0,
       latClosed := true, ingested := 1, collectorDone := true, quantRead := true,
       emitted := false, aborted := false } : RunState).ingested = 1 ∧
    ({ toFeed := 0, workQ := 0, workClosed := true, inFlight := 0, latQ := 0,
       latClosed := true, ingested := 1, collectorDone := true, quantRead := true,
       emitted := false, aborted := false } : RunState).latQ = 0 := by
  have h0 : Reachable 1 1 1 (initState 1) := Reachable.init
  have h1 := Reachable.step h0 (Step.feed _ rfl (by decide) (by decide))
  have h2 := Reachable.step h1 (Step.closeWork _ rfl rfl rfl)
  have h3 := Reachable.step h2 (Step.take _ rfl (by decide) (by decide))
  have h4 := Reachable.step h3 (Step.emitSample _ rfl (by decide) (by decide))
  have h5 := Reachable.step h4 (Step.ingest _ rfl (by decide))
  have h6 := Reachable.step h5 (Step.closeLat _ rfl (Or.inr ⟨rfl, rfl, rfl⟩) rfl)
  have h7 := Reachable.step h6 (Step.collectorFinish _ rfl rfl rfl rfl)
  have h8 := Reachable.step h7 (Step.readQuant _ rfl rfl rfl)
  exact quantile_reads_after_ingestion 1 1 1 _ _ (by decide) h8 rfl
    Relation.ReflTransGen.refl

/-- Claim C5: in any reachable state where some worker's `GetObject` failed
(`log.Fatalf`, non-zero process exit, modelled by `aborted`), no `Datapoint`
has been emitted and no further step of the run is possible — regardless of
how many downloads had already succeeded. -/
theorem download_failure_aborts (L N cap : Nat) (s : RunState)
    (hr : Reachable L N cap s) (ha : s.aborted = true) :
    s.emitted = false ∧ ∀ s', ¬ Step N cap s s' := by
  obtain ⟨i1, i2, i3, i4, i5, i6, i7, i8⟩ := reachable_inv hr
  refine ⟨i8 ha, fun s' hstep => ?_⟩
  cases hstep <;> simp_all

/-- Claim C5 witness: a run with `L = 2`, `N = 2` in which the first
download succeeded and was ingested, and the second download then failed:
the process is aborted with one sample ingested and no datapoint emitted. -/
theorem download_failure_aborts_witness :
    ({ toFeed := 0, workQ := 0, workClosed := true, inFlight := 1, latQ := 0,
       latClosed := false, ingested := 1, collectorDone := false, quantRead := false,
       emitted := false, aborted := true } : RunState).emitted = false ∧
    ({ toFeed := 0, workQ := 0, workClosed := true, inFlight := 1, latQ := 0,
       latClosed := false, ingested := 1, collectorDone := false, quantRead := false,
       emitted := false, aborted := true } : RunState).ingested = 1 := by
  have h0 : Reachable 2 2 2 (initState 2) := Reachable.init
  have h1 := Reachable.step h0 (Step.feed _ rfl (by decide) (by decide))
  have h2 := Reachable.step h1 (Step.take _ rfl (by decide) (by decide))
  have h3 := Reachable.step h2 (Step.emitSample _ rfl (by decide) (by decide))
  have h4 := Reachable.step h3 (Step.ingest _ rfl (by decide))
  have h5 := Reachable.step h4 (Step.feed _ rfl (by decide) (by decide))
  have h6 := Reachable.step h5 (Step.closeWork _ rfl rfl rfl)
  have h7 := Reachable.step h6 (Step.take _ rfl (by decide) (by decide))
  have h8 := Reachable.step h7 (Step.fail _ rfl (by decide))
  exact ⟨(download_failure_aborts 2 2 2 _ h8 rfl).1, rfl⟩

/-- Claim C6: every invalid flag combination — unknown file-set label,
download volume not an exact multiple of the object size, or goroutine
count exceeding the number of files needed — is rejected with a
configuration error, after which `main` exits without consulting any
network oracle (the result is the same for every oracle); and a goroutine
count at most the number of files needed, with the other checks passing,
is accepted. -/
theorem parseFlags_validation (fl : Flags) :
    ((fileSets.lookup fl.set = none ∨
      (∃ fs, fileSets.lookup fl.set = some fs ∧
        ((fl.download * MiB) % fs.Size ≠ 0 ∨
          ((fl.download * MiB) % fs.Size = 0 ∧
            (fl.download * MiB) / fs.Size < fl.goroutines)))) →
      (parseFlags fl = .error .configurationError ∧
        ∀ pages shuffle fetch bodyOk quantile elapsedSec,
          mainModel fl pages shuffle fetch bodyOk quantile elapsedSec
            = .error .configurationError)) ∧
    (∀ fs, fileSets.lookup fl.set = some fs → (fl.download * MiB) % fs.Size = 0 →
      fl.goroutines ≤ (fl.download * MiB) / fs.Size →
      parseFlags fl
        = .ok { Count := fl.count, DownloadSizeBytes := fl.download * MiB,
                EC2Instance := fl.instanceType, FileSetName := fl.set,
                Goroutines := fl.goroutines }) := by
  constructor
  · intro h
    have hpf : parseFlags fl = .error .configurationError := by
      unfold parseFlags
      rcases h with hnone | ⟨fs, hfs, hbad⟩
      · rw [hnone]
      · rw [hfs]
        rcases hbad with hmod | ⟨hmod, hlt⟩
        · simp [hmod]
        · simp [hmod, hlt]
    exact ⟨hpf, fun pages shuffle fetch bodyOk quantile elapsedSec => by
      unfold mainModel
      rw [hpf]⟩
  · intro fs hfs hmod hle
    unfold parseFlags
    rw [hfs]
    simp [hmod, Nat.not_lt.mpr hle]

/-- Claim C6 witness: a 2 MiB volume with the 4 MiB "M004" file set is
rejected (for every network oracle), while 4 goroutines with 4 files
needed ("M001", 4 MiB volume) are accepted. -/
theorem parseFlags_validation_witness :
    (parseFlags { count := 1, instanceType := "c5", goroutines := 1,
                  set := "M004", download := 2 } = .error .configurationError ∧
      mainModel { count := 1, instanceType := "c5", goroutines := 1,
                  set := "M004", download := 2 }
        [] id (fun _ => .error ()) (fun _ => true) (fun _ _ => 0) 1
        = .error .configurationError) ∧
    parseFlags { count := 1, instanceType := "c5", goroutines := 4,
                 set := "M001", download := 4 }
      = .ok { Count := 1, DownloadSizeBytes := 4 * MiB, EC2Instance := "c5",
              FileSetName := "M001", Goroutines := 4 } := by
  constructor
  · have h := (parseFlags_validation
      { count := 1, instanceType := "c5", goroutines := 1, set := "M004", download := 2 }).1
      (Or.inr ⟨⟨4 * MiB⟩, by decide, Or.inl (by decide)⟩)
    exact ⟨h.1, h.2 [] id (fun _ => .error ()) (fun _ => true) (fun _ _ => 0) 1⟩
  · exact (parseFlags_validation
      { count := 1, instanceType := "c5", goroutines := 4, set := "M001", download := 4 }).2
      ⟨MiB⟩ (by decide) (by decide) (by decide)

/-- A small concrete configuration (file set "M001", one file needed) used
by witnesses. -/
def cfgM001 : myConfig :=
  { Count := 1, DownloadSizeBytes := MiB, EC2Instance := "c5",
    FileSetName := "M001", Goroutines := 1 }

/-- Claim C7: when the listing succeeds but yields zero keys,
`buildDownloadList` fails with `emptyDatasetError` — a different error
from `discoveryError` — the run aborts, and no `Datapoint` is produced. -/
theorem empty_dataset_error (cfg : myConfig) (pages : List (Except String (List String)))
    (shuffle : List String → List String) (fetch : String → Except Unit ℚ)
    (bodyOk : String → Bool) (quantile : List ℚ → ℚ → ℚ) (elapsedSec : ℚ)
    (hperm : ∀ l, (shuffle l).Perm l)
    (hkeys : collectKeys pages = .ok []) :
    buildDownloadList cfg pages shuffle = .error .emptyDatasetError ∧
    run cfg pages shuffle fetch bodyOk quantile elapsedSec = .error .emptyDatasetError ∧
    (∀ d, run cfg pages shuffle fetch bodyOk quantile elapsedSec ≠ .ok d) ∧
    BenchError.emptyDatasetError ≠ BenchError.discoveryError := by
  have hsh : shuffle [] = [] := (hperm []).eq_nil
  have hb : buildDownloadList cfg pages shuffle = .error .emptyDatasetError := by
    unfold buildDownloadList listS3Files
    rw [hkeys]
    simp [hsh]
  refine ⟨hb, by unfold run; rw [hb], ?_, by simp⟩
  intro d
  unfold run
  rw [hb]
  simp

/-- Claim C7 witness: zero pages of keys yield `emptyDatasetError` and no
datapoint, for a concrete configuration and oracles. -/
theorem empty_dataset_error_witness :
    buildDownloadList cfgM001 [] id = .error .emptyDatasetError ∧
    run cfgM001 [] id (fun _ => .ok 1) (fun _ => true) (fun _ _ => 0) 1
      = .error .emptyDatasetError ∧
    (∀ d, run cfgM001 [] id (fun _ => .ok 1) (fun _ => true) (fun _ _ => 0) 1
      ≠ .ok d) ∧
    BenchError.emptyDatasetError ≠ BenchError.discoveryError :=
  empty_dataset_error cfgM001 [] id (fun _ => .ok 1) (fun _ => true) (fun _ _ => 0) 1
    (fun l => List.Perm.refl l) rfl

theorem collectKeys_error (pages : List (Except String (List String)))
    (msg : String) (hmem : Except.error msg ∈ pages) :
    collectKeys pages = .error .discoveryError := by
  induction pages with
  | nil => cases hmem
  | cons p rest ih =>
    cases p with
    | error m => rfl
    | ok ks =>
      have hmem' : Except.error msg ∈ rest := by
        cases hmem with
        | tail _ h => exact h
      simp [collectKeys, ih hmem']

/-- Claim C8: if any page of the underlying listing call errors, the list
builder fails with `discoveryError` (in Go, `log.Fatalf` — a non-zero
process exit), the run aborts, and no `Datapoint` is produced. -/
theorem discovery_error_aborts (cfg : myConfig) (pages : List (Except String (List String)))
    (shuffle : List String → List String) (fetch : String → Except Unit ℚ)
    (bodyOk : String → Bool) (quantile : List ℚ → ℚ → ℚ) (elapsedSec : ℚ)
    (msg : String) (hmem : Except.error msg ∈ pages) :
    listS3Files pages shuffle = .error .discoveryError ∧
    buildDownloadList cfg pages shuffle = .error .discoveryError ∧
    run cfg pages shuffle fetch bodyOk quantile elapsedSec = .error .discoveryError ∧
    (∀ d, run cfg pages shuffle fetch bodyOk quantile elapsedSec ≠ .ok d) := by
  have hck := collectKeys_error pages msg hmem
  have hl : listS3Files pages shuffle = .error .discoveryError := by
    unfold listS3Files
    rw [hck]
  have hb : buildDownloadList cfg pages shuffle = .error .discoveryError := by
    unfold buildDownloadList
    rw [hl]
  refine ⟨hl, hb, by unfold run; rw [hb], ?_⟩
  intro d
  unfold run
  rw [hb]
  simp

/-- Claim C8 witness: a single failing listing page aborts the run with
`discoveryError` and no datapoint. -/
theorem discovery_error_aborts_witness :
    listS3Files [Except.error "transport failure"] id = .error .discoveryError ∧
    buildDownloadList cfgM001 [Except.error "transport failure"] id
      = .error .discoveryError ∧
    run cfgM001 [Except.error "transport failure"] id (fun _ => .ok 1)
        (fun _ => true) (fun _ _ => 0) 1 = .error .discoveryError ∧
    (∀ d, run cfgM001 [Except.error "transport failure"] id (fun _ => .ok 1)
        (fun _ => true) (fun _ _ => 0) 1 ≠ .ok d) :=
  discovery_error_aborts cfgM001 _ id (fun _ => .ok 1) (fun _ => true) (fun _ _ => 0) 1
    "transport failure" (List.mem_singleton.mpr rfl)

/-- Claim C9: for a successful fetch, the recorded latency sample equals
`t1 - t0` — the response-headers time minus the request-issue time — and
the sample is pushed onto the latency queue strictly before the body is
consumed; the body is then fully consumed and discarded, after the request
was issued and the response received. -/
theorem latency_sample_headers_first (t0 t1 : ℚ) (b : Bool) :
    ∃ evs lat, processItem ⟨t0, .ok t1, b⟩ = .ok (evs, lat) ∧
      lat = t1 - t0 ∧
      ∃ pre mid post,
        evs = pre ++ DlEvent.sampleEmitted lat :: (mid ++ DlEvent.bodyConsumed :: post) ∧
        DlEvent.requestIssued ∈ pre ∧ DlEvent.responseReceived ∈ pre :=
  ⟨[DlEvent.requestIssued, DlEvent.responseReceived, DlEvent.sampleEmitted (t1 - t0),
      DlEvent.bodyConsumed], t1 - t0, rfl, rfl,
    [DlEvent.requestIssued, DlEvent.responseReceived], [], [], rfl,
    by simp, by simp⟩

theorem downloadPhase_bodyOk_irrel (fetch : String → Except Unit ℚ)
    (b1 b2 : String → Bool) (files : List String) :
    downloadPhase fetch b1 files = downloadPhase fetch b2 files := by
  induction files with
  | nil => rfl
  | cons f rest ih =>
    cases hf : fetch f <;> simp [downloadPhase, hf, ih]

/-- Claim C10: the outcome of reading the response body is discarded:
`processItem` gives the same result for any body outcome, a successful
`GetObject` always produces the latency sample (the run continues), the
whole `run` — and hence the emitted `Datapoint` — is identical under any
body-read oracle, and only a `GetObject` error aborts. -/
theorem body_read_failure_ignored :
    (∀ (t0 t1 : ℚ) (b1 b2 : Bool),
      processItem ⟨t0, .ok t1, b1⟩ = processItem ⟨t0, .ok t1, b2⟩ ∧
      ∃ evs, processItem ⟨t0, .ok t1, b1⟩ = .ok (evs, t1 - t0)) ∧
    (∀ (t0 : ℚ) (b : Bool), processItem ⟨t0, .error (), b⟩ = .error .downloadError) ∧
    (∀ cfg pages shuffle fetch bodyOk1 bodyOk2 quantile elapsedSec,
      run cfg pages shuffle fetch bodyOk1 quantile elapsedSec
        = run cfg pages shuffle fetch bodyOk2 quantile elapsedSec) := by
  refine ⟨fun t0 t1 b1 b2 => ⟨rfl, _, rfl⟩, fun t0 b => rfl, ?_⟩
  intro cfg pages shuffle fetch bodyOk1 bodyOk2 quantile elapsedSec
  unfold run
  cases hb : buildDownloadList cfg pages shuffle with
  | error e => rfl
  | ok files =>
    dsimp only
    rw [downloadPhase_bodyOk_irrel fetch bodyOk1 bodyOk2 files]

end S3Bench
